import Mathlib

/-!
Verification development for the Road Ledger owner-operator analysis engine
(`src/App.tsx`). The computational core of the app (regional fuel pricing,
ledger aggregation, profitability and tax analysis, break-even solving,
debt scheduling and monthly reporting) is shallowly embedded here: JS
numbers are modelled as rationals, JS date strings `YYYY-MM-DD` as
year/month/day triples (string comparison on such strings is exactly the
lexicographic order on the triples), and record collections as lists.
Display-only fields (labels, coordinates, free-text descriptions,
timestamps) that no modelled computation reads are omitted from the record
types. All line references are to `src/App.tsx`.
-/

namespace RoadLedger

/-- A calendar date, modelling the `YYYY-MM-DD` strings of the app.
JS string comparison of such strings is the lexicographic order below. -/
structure Date where
  year : ℕ
  month : ℕ
  day : ℕ
deriving DecidableEq, Repr

/-- Lexicographic strict order on dates: `dateLtB a b` models `a < b`
on the corresponding `YYYY-MM-DD` strings. -/
def dateLtB (a b : Date) : Bool :=
  decide (a.year < b.year) ||
    (decide (a.year = b.year) &&
      (decide (a.month < b.month) ||
        (decide (a.month = b.month) && decide (a.day < b.day))))

/-- A trip (income event), embedding the `Income` type of `App.tsx`
(lines 929-947). Display-only fields (loadId, broker, city labels,
coordinates, fuel regions, timestamps) are omitted; no modelled
computation reads them. -/
structure Income where
  id : String
  date : Date
  distance : ℚ
  ratePerMile : ℚ
  totalPayout : ℚ
  deadheadMiles : Option ℚ := none
deriving DecidableEq, Repr

/-- An expense record, embedding the `Expense` type of `App.tsx`
(lines 949-955). The category is kept as a string, as in the source's
string-literal union; the free-text description is omitted. -/
structure Expense where
  id : String
  date : Date
  category : String
  amount : ℚ
deriving DecidableEq, Repr

/-- A personal (household) monthly expense, embedding `PersonalExpense`
(lines 957-962); the description field is omitted. -/
structure PersonalExpense where
  id : String
  category : String
  monthlyAmount : ℚ
deriving DecidableEq, Repr

/-- An outstanding debt, embedding `Debt` (lines 975-982). The source's
creditor field is named `to`, a Lean keyword, so it is embedded as
`creditor`. The payoff plan reads the due date only through
`Number(d.dueDate)` compared with the current year (lines 2517-2518), so
the due date is embedded as an optional year number; `dateBorrowed` and
`notes` are display-only and omitted. -/
structure Debt where
  id : String
  creditor : String
  amount : ℚ
  dueDate : Option ℤ := none
deriving DecidableEq, Repr

/-! ### Configuration constants (lines 836-842) -/

def COMPANY_DRIVER_RATE : ℚ := 65/100

def VEHICLE_VALUE : ℚ := 85000

def THREE_YEAR_MILES : ℚ := 360000

def CASCADIA_DEPR_RATE : ℚ := VEHICLE_VALUE / THREE_YEAR_MILES

def CASCADIA_MAINT_RESERVE : ℚ := 15/100

def MPG : ℚ := 7

def TOTAL_TAX_RATE : ℚ := 273/1000

/-! ### RegionalFuelModel (lines 890-926) -/

/-- The `'AVG'` (national average) entry of the regional diesel table. -/
def NATIONAL_AVG_PRICE : ℚ := 385/100

/-- The regional diesel price table `REGIONAL_DIESEL` (lines 891-907),
region code to price per gallon. -/
def REGIONAL_DIESEL (r : String) : Option ℚ :=
  if r = "UT" then some (38/10)
  else if r = "TX" then some (34/10)
  else if r = "OH" then some (36/10)
  else if r = "NV" then some (41/10)
  else if r = "CA" then some (52/10)
  else if r = "PA" then some (405/100)
  else if r = "NM" then some (365/100)
  else if r = "AZ" then some (375/100)
  else if r = "CO" then some (37/10)
  else if r = "OK" then some (335/100)
  else if r = "AR" then some (34/10)
  else if r = "TN" then some (345/100)
  else if r = "IN" then some (355/100)
  else if r = "WV" then some (37/10)
  else if r = "AVG" then some NATIONAL_AVG_PRICE
  else none

/-- The route midpoint table `ROUTE_MIDPOINTS` (lines 910-914), keyed by
the `origin-destination` string. -/
def ROUTE_MIDPOINTS (key : String) : Option String :=
  if key = "UT-TX" then some "NM"
  else if key = "TX-OH" then some "TN"
  else if key = "OH-NV" then some "CO"
  else if key = "NV-CA" then some "NV"
  else if key = "CA-TX" then some "AZ"
  else if key = "TX-TX" then some "TX"
  else if key = "TX-PA" then some "TN"
  else if key = "TX-NV" then some "NM"
  else if key = "OH-TX" then some "TN"
  else if key = "PA-TX" then some "TN"
  else if key = "NV-TX" then some "NM"
  else none

/-- Price lookup with fallback: `REGIONAL_DIESEL[r]?.price ?? REGIONAL_DIESEL['AVG'].price`. -/
def dieselPrice (r : String) : ℚ :=
  (REGIONAL_DIESEL r).getD NATIONAL_AVG_PRICE

/-- `fuelCostForMiles` (lines 917-926): fuel cost of a distance, averaging
origin, midpoint and destination prices when a destination region is given. -/
def fuelCostForMiles (miles : ℚ) (originRegion : String) (destRegion : Option String) : ℚ :=
  let oPrice := dieselPrice originRegion
  match destRegion with
  | none => (miles / MPG) * oPrice
  | some dest =>
    let dPrice := dieselPrice dest
    let midKey := originRegion ++ "-" ++ dest
    let midRegion := (ROUTE_MIDPOINTS midKey).getD "AVG"
    let mPrice := dieselPrice midRegion
    let avgPrice := (oPrice + mPrice + dPrice) / 3
    (miles / MPG) * avgPrice

/-- Arithmetic mean of three prices, as the spec words it. -/
def meanOfThree (a b c : ℚ) : ℚ := (a + b + c) / 3

/-- Modelled from the spec's description of the fuel model (its words, for
comparison with `fuelCostForMiles`): the per-gallon price of a region is
the table entry, an unknown code resolving to the national-average entry;
with a destination, the cost is distance over MPG times the arithmetic
mean of origin, midpoint and destination prices, the midpoint region
being the table entry for the pair or the national-average region. -/
def fuelCostSpec (miles : ℚ) (originRegion : String) (destRegion : Option String) : ℚ :=
  match destRegion with
  | none => (miles / MPG) * dieselPrice originRegion
  | some dest =>
    let midRegion :=
      match ROUTE_MIDPOINTS (originRegion ++ "-" ++ dest) with
      | some m => m
      | none => "AVG"
    (miles / MPG) *
      meanOfThree (dieselPrice originRegion) (dieselPrice midRegion) (dieselPrice dest)

/-- C5: with a destination region, the fuel cost is `(d / MPG)` times the
arithmetic mean of origin, midpoint and destination per-gallon prices,
the midpoint being the table entry for the pair or the national-average
region when absent; without a destination it is `(d / MPG)` times the
origin price; and an unknown region code resolves to the
national-average price. -/
theorem fuelCostForMiles_spec :
    (∀ (miles : ℚ) (o : String) (t : Option String),
      fuelCostForMiles miles o t = fuelCostSpec miles o t) ∧
    (∀ r : String, REGIONAL_DIESEL r = none → dieselPrice r = NATIONAL_AVG_PRICE) := by
  constructor
  · intro miles o t
    cases t with
    | none => rfl
    | some dest =>
      simp only [fuelCostForMiles, fuelCostSpec, meanOfThree, Option.getD]
      cases ROUTE_MIDPOINTS (o ++ "-" ++ dest) <;> rfl
  · intro r h
    simp [dieselPrice, h]

/-- Witness for C5 at a concrete input: the unknown region code `"ZZ"`
falls back to the national-average price, and the spec and code versions
agree on the spec's worked example `fuelCost(1000, "TX", "OH")`. -/
theorem fuelCostForMiles_spec_witness :
    fuelCostForMiles 1000 "TX" (some "OH") = fuelCostSpec 1000 "TX" (some "OH") ∧
    dieselPrice "ZZ" = NATIONAL_AVG_PRICE := by
  refine ⟨fuelCostForMiles_spec.1 1000 "TX" (some "OH"), fuelCostForMiles_spec.2 "ZZ" ?_⟩
  rfl

/-- C8 counterexample: the claim says the cost with destination equal to
the origin equals the single-region (no-destination) cost for every
region. For region `"UT"` there is no `"UT-UT"` midpoint entry, so the
midpoint falls back to the national average and the three-point average
differs from the single-region price: at 7 miles the costs are
`229/60` versus `19/5`. -/
theorem fuelCost_same_region_ne_single_example :
    fuelCostForMiles 7 "UT" (some "UT") ≠ fuelCostForMiles 7 "UT" none := by
  simp [fuelCostForMiles, dieselPrice, REGIONAL_DIESEL, ROUTE_MIDPOINTS,
    NATIONAL_AVG_PRICE, MPG]
  norm_num

/-- C8 amended: three-point averaging is applied whenever a destination
region is given, even when it equals the origin: the cost with
destination `r` from origin `r` is `(d / MPG)` times the mean of two
copies of `r`'s price and the price of the `(r, r)` midpoint (the table
entry for `r-r`, or the national-average region when absent). It
coincides with the no-destination cost exactly when that midpoint price
equals `r`'s own price — e.g. for `"TX"`, whose `TX-TX` midpoint is
`"TX"` — and not in general. -/
theorem fuelCost_same_region_amended :
    ∀ (d : ℚ) (r : String),
      fuelCostForMiles d r (some r) =
        (d / MPG) *
          ((2 * dieselPrice r + dieselPrice ((ROUTE_MIDPOINTS (r ++ "-" ++ r)).getD "AVG")) / 3) ∧
      (dieselPrice ((ROUTE_MIDPOINTS (r ++ "-" ++ r)).getD "AVG") = dieselPrice r →
        fuelCostForMiles d r (some r) = fuelCostForMiles d r none) := by
  intro d r
  constructor
  · simp only [fuelCostForMiles]
    ring
  · intro h
    simp only [fuelCostForMiles, h]
    ring

/-- Witness for C8's amended claim at `r = "TX"`, `d = 7`: the `TX-TX`
midpoint entry is `"TX"` itself, so the two costs agree. -/
theorem fuelCost_same_region_amended_witness :
    fuelCostForMiles 7 "TX" (some "TX") = fuelCostForMiles 7 "TX" none := by
  refine (fuelCost_same_region_amended 7 "TX").2 ?_
  rfl

/-! ### LedgerAggregator (lines 1146-1167) -/

/-- `isFutureTrip` (lines 1146-1150): a trip date is pending when it is
strictly after the evaluation date (the JS code compares the `YYYY-MM-DD`
strings, which is the lexicographic date order). -/
def isFutureTrip (today : Date) (date : Date) : Bool :=
  dateLtB today date

/-- `completedIncomes` (line 1153): trips that are not pending. -/
def completedIncomes (incomes : List Income) (today : Date) : List Income :=
  incomes.filter (fun i => ! isFutureTrip today i.date)

/-- `pendingIncomes` (line 1154): trips dated strictly after the evaluation date. -/
def pendingIncomes (incomes : List Income) (today : Date) : List Income :=
  incomes.filter (fun i => isFutureTrip today i.date)

/-- `totalIncome` (line 1155): realized revenue, over non-pending trips only. -/
def totalIncome (incomes : List Income) (today : Date) : ℚ :=
  ((completedIncomes incomes today).map Income.totalPayout).sum

/-- `pendingRevenue` (line 1167): forecast revenue of pending trips. -/
def pendingRevenue (incomes : List Income) (today : Date) : ℚ :=
  ((pendingIncomes incomes today).map Income.totalPayout).sum

/-- `totalMiles` (line 1165): realized loaded miles, non-pending trips only. -/
def totalMiles (incomes : List Income) (today : Date) : ℚ :=
  ((completedIncomes incomes today).map Income.distance).sum

/-- `pendingTripIds` (line 1157): ids of pending trips. -/
def pendingTripIds (incomes : List Income) (today : Date) : List String :=
  (incomes.filter (fun i => isFutureTrip today i.date)).map Income.id

/-- The expense-to-trip association convention (line 1160): the regex
`^(?:fuel|dh)-(.+)$` on the expense id, capturing the originating trip id. -/
def tripExpenseRef (s : String) : Option String :=
  match s.data with
  | 'f' :: 'u' :: 'e' :: 'l' :: '-' :: rest => if rest = [] then none else some (String.mk rest)
  | 'd' :: 'h' :: '-' :: rest => if rest = [] then none else some (String.mk rest)
  | _ => none

/-- `completedExpenses` (lines 1158-1163): expenses whose id marks them as
generated from a pending trip are excluded; all others are kept. -/
def completedExpenses (incomes : List Income) (expenses : List Expense) (today : Date) :
    List Expense :=
  expenses.filter (fun e =>
    match tripExpenseRef e.id with
    | some tid => ! decide (tid ∈ pendingTripIds incomes today)
    | none => true)

/-- `totalExpenses` (line 1164): realized expense total. -/
def totalExpenses (incomes : List Income) (expenses : List Expense) (today : Date) : ℚ :=
  ((completedExpenses incomes expenses today).map Expense.amount).sum

/-! ### ProfitabilityAnalyzer and TaxEstimator (lines 1174-1196) -/

/-- The output record of the `analysis` memo (lines 1190-1196), restricted
to the fields the analysis computes from the aggregate totals (the
seasonal-projection and tracked-fuel display fields are omitted). -/
structure Analysis where
  expectedFuelCost : ℚ
  maintReserve : ℚ
  vehicleDepreciation : ℚ
  totalHiddenCosts : ℚ
  ownerOperatorCashProfit : ℚ
  ownerOperatorTrueProfit : ℚ
  companyEquivalentEarnings : ℚ
  isBeatingCompanyRate : Bool
  estimatedTax : ℚ
  afterTaxProfit : ℚ
deriving DecidableEq, Repr

/-- The `analysis` computation (lines 1174-1196) as a function of the
aggregate totals it consumes. -/
def analysisOf (tIncome tExpenses tMiles : ℚ) : Analysis :=
  let expectedFuelCost := tMiles * (NATIONAL_AVG_PRICE / MPG)
  let maintReserve := tMiles * CASCADIA_MAINT_RESERVE
  let vehicleDepreciation := tMiles * CASCADIA_DEPR_RATE
  let totalHiddenCosts := maintReserve + vehicleDepreciation
  let ownerOperatorCashProfit := tIncome - tExpenses
  let ownerOperatorTrueProfit := ownerOperatorCashProfit - totalHiddenCosts
  let companyEquivalentEarnings := tMiles * COMPANY_DRIVER_RATE
  let estimatedTax := max 0 ownerOperatorTrueProfit * TOTAL_TAX_RATE
  let afterTaxProfit := ownerOperatorTrueProfit - estimatedTax
  { expectedFuelCost := expectedFuelCost
    maintReserve := maintReserve
    vehicleDepreciation := vehicleDepreciation
    totalHiddenCosts := totalHiddenCosts
    ownerOperatorCashProfit := ownerOperatorCashProfit
    ownerOperatorTrueProfit := ownerOperatorTrueProfit
    companyEquivalentEarnings := companyEquivalentEarnings
    isBeatingCompanyRate := decide (companyEquivalentEarnings < ownerOperatorTrueProfit)
    estimatedTax := estimatedTax
    afterTaxProfit := afterTaxProfit }

/-- C6: estimated tax is `max(0, trueProfit) × flatTaxRate` and after-tax
profit is `trueProfit − estimatedTax`; for negative true profit the tax
is exactly zero and the after-tax profit is the true profit unchanged. -/
theorem tax_estimation_contract (tIncome tExpenses tMiles : ℚ) :
    (analysisOf tIncome tExpenses tMiles).estimatedTax =
      max 0 (analysisOf tIncome tExpenses tMiles).ownerOperatorTrueProfit * TOTAL_TAX_RATE ∧
    (analysisOf tIncome tExpenses tMiles).afterTaxProfit =
      (analysisOf tIncome tExpenses tMiles).ownerOperatorTrueProfit -
        (analysisOf tIncome tExpenses tMiles).estimatedTax ∧
    ((analysisOf tIncome tExpenses tMiles).ownerOperatorTrueProfit < 0 →
      (analysisOf tIncome tExpenses tMiles).estimatedTax = 0 ∧
      (analysisOf tIncome tExpenses tMiles).afterTaxProfit =
        (analysisOf tIncome tExpenses tMiles).ownerOperatorTrueProfit) := by
  refine ⟨rfl, rfl, fun hneg => ?_⟩
  have hmax : max 0 (analysisOf tIncome tExpenses tMiles).ownerOperatorTrueProfit = 0 :=
    max_eq_left (le_of_lt hneg)
  constructor
  · show max 0 (analysisOf tIncome tExpenses tMiles).ownerOperatorTrueProfit * TOTAL_TAX_RATE = 0
    rw [hmax, zero_mul]
  · show (analysisOf tIncome tExpenses tMiles).ownerOperatorTrueProfit -
      max 0 (analysisOf tIncome tExpenses tMiles).ownerOperatorTrueProfit * TOTAL_TAX_RATE =
      (analysisOf tIncome tExpenses tMiles).ownerOperatorTrueProfit
    rw [hmax, zero_mul, sub_zero]

/-- Witness for C6, realizing the spec's tax-floor test: with revenue 0,
expenses 500 and no miles, the true profit is −500, the estimated tax 0
and the after-tax profit −500 unchanged. -/
theorem tax_estimation_contract_witness :
    (analysisOf 0 500 0).ownerOperatorTrueProfit = -500 ∧
    (analysisOf 0 500 0).estimatedTax = 0 ∧
    (analysisOf 0 500 0).afterTaxProfit = -500 := by
  have htrue : (analysisOf 0 500 0).ownerOperatorTrueProfit = -500 := by
    norm_num [analysisOf, CASCADIA_MAINT_RESERVE, CASCADIA_DEPR_RATE]
  have h := (tax_estimation_contract 0 500 0).2.2 (by rw [htrue]; norm_num)
  exact ⟨htrue, h.1, h.2.trans htrue⟩

/-- The id convention resolves `fuel-<tripId>` to the trip id, for any
nonempty trip id. -/
theorem tripExpenseRef_fuel (t : String) (h : t ≠ "") :
    tripExpenseRef ("fuel-" ++ t) = some t := by
  obtain ⟨l⟩ := t
  have hd : ("fuel-" ++ String.mk l).data = 'f' :: 'u' :: 'e' :: 'l' :: '-' :: l := by
    simp [String.data_append]
  have hl : l ≠ [] := fun hnil => h (by simp [hnil])
  simp [tripExpenseRef, hd, hl]

/-- The id convention resolves `dh-<tripId>` to the trip id, for any
nonempty trip id. -/
theorem tripExpenseRef_dh (t : String) (h : t ≠ "") :
    tripExpenseRef ("dh-" ++ t) = some t := by
  obtain ⟨l⟩ := t
  have hd : ("dh-" ++ String.mk l).data = 'd' :: 'h' :: '-' :: l := by
    simp [String.data_append]
  have hl : l ≠ [] := fun hnil => h (by simp [hnil])
  simp [tripExpenseRef, hd, hl]

/-- C4: a trip dated strictly after the evaluation date contributes
nothing to realized revenue or realized miles, contributes its payout to
the pending/forecast total, and every expense generated from it by the
`fuel-<tripId>` / `dh-<tripId>` convention is excluded from the realized
expense set, while expenses generated from no trip are always kept. -/
theorem pending_trip_exclusion (expenses : List Expense) (today : Date) (t : Income)
    (pre post : List Income) (hfut : isFutureTrip today t.date = true) (hid : t.id ≠ "") :
    totalIncome (pre ++ t :: post) today = totalIncome (pre ++ post) today ∧
    totalMiles (pre ++ t :: post) today = totalMiles (pre ++ post) today ∧
    pendingRevenue (pre ++ t :: post) today =
      t.totalPayout + pendingRevenue (pre ++ post) today ∧
    (∀ e ∈ expenses, (e.id = "fuel-" ++ t.id ∨ e.id = "dh-" ++ t.id) →
      e ∉ completedExpenses (pre ++ t :: post) expenses today) ∧
    (∀ e ∈ expenses, tripExpenseRef e.id = none →
      e ∈ completedExpenses (pre ++ t :: post) expenses today) := by
  have htid : t.id ∈ pendingTripIds (pre ++ t :: post) today := by
    refine List.mem_map_of_mem Income.id (List.mem_filter.mpr ?_)
    exact ⟨List.mem_append_right pre (List.mem_cons_self t post), hfut⟩
  refine ⟨?_, ?_, ?_, ?_, ?_⟩
  · simp [totalIncome, completedIncomes, List.filter_append, List.filter_cons, hfut]
  · simp [totalMiles, completedIncomes, List.filter_append, List.filter_cons, hfut]
  · simp only [pendingRevenue, pendingIncomes, List.filter_append, List.filter_cons, hfut,
      if_pos, List.map_append, List.sum_append, List.map_cons, List.sum_cons]
    ring
  · intro e _ hor hmem
    have hpred := (List.mem_filter.mp hmem).2
    rcases hor with hfuel | hdh
    · rw [hfuel] at hpred
      simp only [tripExpenseRef_fuel t.id hid] at hpred
      exact absurd htid (by simpa using hpred)
    · rw [hdh] at hpred
      simp only [tripExpenseRef_dh t.id hid] at hpred
      exact absurd htid (by simpa using hpred)
  · intro e he href
    refine List.mem_filter.mpr ⟨he, ?_⟩
    simp only [href]

/-- Concrete trip used by the witnesses: a pending trip dated 2026-03-01. -/
def sampleFutureTrip : Income := ⟨"t9", ⟨2026, 3, 1⟩, 500, 1, 500, none⟩

/-- Concrete evaluation date 2026-02-15, before `sampleFutureTrip`. -/
def sampleEvalDate : Date := ⟨2026, 2, 15⟩

/-- Concrete fuel expense generated from `sampleFutureTrip` by the id
convention. -/
def sampleFuelExpense : Expense := ⟨"fuel-t9", ⟨2026, 3, 1⟩, "Fuel", 100⟩

/-- Witness for C4: on 2026-02-15 the trip dated 2026-03-01 adds nothing
to realized revenue, and its generated fuel expense is excluded from the
realized expense set. -/
theorem pending_trip_exclusion_witness :
    totalIncome [sampleFutureTrip] sampleEvalDate = totalIncome [] sampleEvalDate ∧
    sampleFuelExpense ∉
      completedExpenses [sampleFutureTrip] [sampleFuelExpense] sampleEvalDate := by
  have h := pending_trip_exclusion [sampleFuelExpense] sampleEvalDate sampleFutureTrip
    [] [] (by decide) (by decide)
  exact ⟨h.1, h.2.2.2.1 sampleFuelExpense (by simp) (Or.inl (by decide))⟩

/-! ### Trip deletion (line 1243) -/

/-- The slice of the app state that `deleteIncome` can touch: the trip
and expense collections. -/
structure AppState where
  incomes : List Income
  expenses : List Expense
deriving Repr

/-- `deleteIncome` (line 1243): filters the trip out of the income
collection; the expense collection is not touched. -/
def deleteIncome (s : AppState) (tripId : String) : AppState :=
  { s with incomes := s.incomes.filter (fun i => ! decide (i.id = tripId)) }

/-- C10: deleting a trip removes exactly the trips bearing that id from
the income collection and leaves the expense collection unchanged; the
fuel/deadhead expenses generated from the deleted trip remain and are
counted in the realized expense set for every evaluation date, because no
remaining trip carries the deleted id, so none of them can be pending. -/
theorem deleteIncome_frame (s : AppState) (tid : String) (hid : tid ≠ "") :
    (deleteIncome s tid).expenses = s.expenses ∧
    (∀ i : Income, i ∈ (deleteIncome s tid).incomes ↔ i ∈ s.incomes ∧ i.id ≠ tid) ∧
    (∀ (today : Date) (e : Expense), e ∈ s.expenses →
      (e.id = "fuel-" ++ tid ∨ e.id = "dh-" ++ tid) →
      e ∈ completedExpenses (deleteIncome s tid).incomes (deleteIncome s tid).expenses today) := by
  refine ⟨rfl, ?_, ?_⟩
  · intro i
    simp [deleteIncome, List.mem_filter]
  · intro today e he hor
    have hnotpending : tid ∉ pendingTripIds (deleteIncome s tid).incomes today := by
      intro hmem
      obtain ⟨i, hi, hieq⟩ := List.mem_map.mp hmem
      have hikeep := (List.mem_filter.mp (List.mem_filter.mp hi).1).2
      rw [hieq] at hikeep
      simp at hikeep
    refine List.mem_filter.mpr ⟨he, ?_⟩
    rcases hor with hfuel | hdh
    · rw [hfuel]
      simp only [tripExpenseRef_fuel tid hid]
      simpa using hnotpending
    · rw [hdh]
      simp only [tripExpenseRef_dh tid hid]
      simpa using hnotpending

/-- Witness for C10: deleting the trip `"t9"` keeps the expense list
as-is and its generated fuel expense is counted as realized afterwards,
even though the trip was pending before deletion. -/
theorem deleteIncome_frame_witness :
    (deleteIncome ⟨[sampleFutureTrip], [sampleFuelExpense]⟩ "t9").expenses =
      [sampleFuelExpense] ∧
    sampleFuelExpense ∈
      completedExpenses (deleteIncome ⟨[sampleFutureTrip], [sampleFuelExpense]⟩ "t9").incomes
        (deleteIncome ⟨[sampleFutureTrip], [sampleFuelExpense]⟩ "t9").expenses
        sampleEvalDate := by
  have h := deleteIncome_frame ⟨[sampleFutureTrip], [sampleFuelExpense]⟩ "t9" (by decide)
  exact ⟨h.1, h.2.2 sampleEvalDate sampleFuelExpense (by simp) (Or.inl (by decide))⟩

/-! ### MonthlyReportBuilder (lines 2210, 2234-2238) -/

/-- The year-month key of a date, modelling `date.substring(0, 7)` on a
`YYYY-MM-DD` string. -/
def ym (d : Date) : ℕ × ℕ := (d.year, d.month)

/-- The month buckets (line 2210): the distinct year-months occurring in
the trip and expense collections. The JS code builds them with
`new Set(...)` and sorts them for display; the embedding keeps one
duplicate-free list with the same members, which is all the totals
depend on. -/
def monthsList (incomes : List Income) (expenses : List Expense) : List (ℕ × ℕ) :=
  (incomes.map (fun i => ym i.date) ++ expenses.map (fun e => ym e.date)).dedup

/-- `mRevenue` (lines 2235, 2237): the revenue of one month bucket, over
all trips whose date starts with that year-month. -/
def mRevenue (incomes : List Income) (m : ℕ × ℕ) : ℚ :=
  ((incomes.filter (fun i => decide (ym i.date = m))).map Income.totalPayout).sum

/-- The total of the monthly report's revenue column over all buckets. -/
def monthlyRevenueTotal (incomes : List Income) (expenses : List Expense) : ℚ :=
  ((monthsList incomes expenses).map (mRevenue incomes)).sum

/-- Splitting a mapped sum along a Boolean filter. -/
theorem sum_map_filter_add {α : Type} (p : α → Bool) (v : α → ℚ) (l : List α) :
    ((l.filter p).map v).sum + ((l.filter (fun a => !p a)).map v).sum = (l.map v).sum := by
  induction l with
  | nil => simp
  | cons a l ih =>
    cases h : p a <;> simp [List.filter_cons, h, ← ih] <;> ring

/-- Summing a per-key filtered total over a duplicate-free list of keys
that covers every element recovers the total sum. -/
theorem sum_partition {α κ : Type} [DecidableEq κ] (k : α → κ) (v : α → ℚ) :
    ∀ (ms : List κ) (l : List α), ms.Nodup → (∀ a ∈ l, k a ∈ ms) →
      (ms.map (fun m => ((l.filter (fun a => decide (k a = m))).map v).sum)).sum =
        (l.map v).sum := by
  intro ms
  induction ms with
  | nil =>
    intro l _ hcov
    have : l = [] := by
      cases l with
      | nil => rfl
      | cons a l => exact absurd (hcov a (List.mem_cons_self a l)) (List.not_mem_nil _)
    subst this
    simp
  | cons m ms ih =>
    intro l hnd hcov
    have hm_notin : m ∉ ms := (List.nodup_cons.mp hnd).1
    have hnd' : ms.Nodup := (List.nodup_cons.mp hnd).2
    set l' : List α := l.filter (fun a => !(decide (k a = m))) with hl'
    have hmap_eq : ∀ m' ∈ ms,
        ((l.filter (fun a => decide (k a = m'))).map v).sum =
          ((l'.filter (fun a => decide (k a = m'))).map v).sum := by
      intro m' hm'
      have hmm : m' ≠ m := fun h => hm_notin (h ▸ hm')
      have : l'.filter (fun a => decide (k a = m')) = l.filter (fun a => decide (k a = m')) := by
        rw [hl', List.filter_filter]
        refine List.filter_congr ?_
        intro a _
        by_cases hk : k a = m'
        · simp [hk, hmm]
        · simp [hk]
      rw [this]
    have hcov' : ∀ a ∈ l', k a ∈ ms := by
      intro a ha
      have hmem := List.mem_filter.mp ha
      have hne : k a ≠ m := by simpa using hmem.2
      have := hcov a hmem.1
      rcases List.mem_cons.mp this with h | h
      · exact absurd h hne
      · exact h
    calc ((m :: ms).map (fun m => ((l.filter (fun a => decide (k a = m))).map v).sum)).sum
        = ((l.filter (fun a => decide (k a = m))).map v).sum +
            (ms.map (fun m => ((l.filter (fun a => decide (k a = m))).map v).sum)).sum := by
          simp
      _ = ((l.filter (fun a => decide (k a = m))).map v).sum +
            (ms.map (fun m => ((l'.filter (fun a => decide (k a = m))).map v).sum)).sum := by
          rw [List.map_congr_left hmap_eq]
      _ = ((l.filter (fun a => decide (k a = m))).map v).sum + (l'.map v).sum := by
          rw [ih l' hnd' hcov']
      _ = (l.map v).sum := sum_map_filter_add (fun a => decide (k a = m)) v l

/-- C3 counterexample: the claim says the monthly report's revenue column
always sums to the realized total revenue. With a single trip dated
2026-03-01 evaluated on 2026-02-15, the trip is pending: realized
revenue is 0, but the monthly report puts its payout of 500 in the
2026-03 bucket, so the sums differ. -/
theorem monthlyRevenue_ne_realized_example :
    monthlyRevenueTotal [sampleFutureTrip] [] ≠
      totalIncome [sampleFutureTrip] sampleEvalDate := by
  have hl : monthlyRevenueTotal [sampleFutureTrip] [] = 500 := by
    simp [monthlyRevenueTotal, monthsList, mRevenue, ym, sampleFutureTrip]
  have hr : totalIncome [sampleFutureTrip] sampleEvalDate = 0 := by
    simp [totalIncome, completedIncomes, isFutureTrip, dateLtB, sampleFutureTrip,
      sampleEvalDate]
  rw [hl, hr]
  norm_num

/-- C3 amended: every trip is counted in exactly one month bucket, so the
monthly report's revenue column sums to the revenue of all trips — the
realized total plus the pending/forecast total — rather than the realized
total alone. -/
theorem monthlyRevenue_eq_realized_plus_pending
    (incomes : List Income) (expenses : List Expense) (today : Date) :
    monthlyRevenueTotal incomes expenses =
      totalIncome incomes today + pendingRevenue incomes today := by
  have hleft : monthlyRevenueTotal incomes expenses = (incomes.map Income.totalPayout).sum := by
    refine sum_partition (fun i => ym i.date) Income.totalPayout
      (monthsList incomes expenses) incomes (List.nodup_dedup _) ?_
    intro i hi
    exact List.mem_dedup.mpr (List.mem_append_left _ (List.mem_map_of_mem _ hi))
  have hright : totalIncome incomes today + pendingRevenue incomes today =
      (incomes.map Income.totalPayout).sum := by
    have := sum_map_filter_add (fun i => isFutureTrip today i.date) Income.totalPayout incomes
    rw [totalIncome, pendingRevenue, completedIncomes, pendingIncomes, add_comm]
    exact this
  rw [hleft, hright]

/-! ### Personal expenses and BreakEvenSolver (lines 1143, 1381-1399) -/

/-- `totalPersonalMonthly` (line 1143): the total personal monthly
obligation, summed over every personal expense row — including the
`"Debt"` category row. -/
def totalPersonalMonthly (pes : List PersonalExpense) : ℚ :=
  (pes.map PersonalExpense.monthlyAmount).sum

/-- `debtPayment` (line 1395): the monthly amount of the first personal
expense in the `"Debt"` category, or 0 when there is none. -/
def debtPayment (pes : List PersonalExpense) : ℚ :=
  match pes.find? (fun p => decide (p.category = "Debt")) with
  | some p => p.monthlyAmount
  | none => 0

/-- `takeHomeNeed` (lines 1394-1396): `personalNeed + debtPayment`, where
`personalNeed` is `totalPersonalMonthly`. -/
def takeHomeNeed (pes : List PersonalExpense) : ℚ :=
  totalPersonalMonthly pes + debtPayment pes

/-- Total of the `Fuel`-category amounts among the realized expenses
(line 1382). -/
def fuelExpenseTotal (ce : List Expense) : ℚ :=
  ((ce.filter (fun e => decide (e.category = "Fuel"))).map Expense.amount).sum

/-- `ratePerMile` (line 1381): realized revenue per realized mile, with a
default of 2.0 when there are no miles. -/
def ratePerMile (tIncome tMiles : ℚ) : ℚ :=
  if 0 < tMiles then tIncome / tMiles else 2

/-- `fuelPerMile` (line 1382): realized fuel expense per realized mile,
defaulting to the national-average price over MPG when there are no miles. -/
def fuelPerMile (tMiles : ℚ) (ce : List Expense) : ℚ :=
  if 0 < tMiles then fuelExpenseTotal ce / tMiles else NATIONAL_AVG_PRICE / MPG

/-- `variableCostPerMile` (line 1383). -/
def variableCostPerMile (tMiles : ℚ) (ce : List Expense) : ℚ :=
  fuelPerMile tMiles ce + CASCADIA_DEPR_RATE + CASCADIA_MAINT_RESERVE

/-- `marginalProfitPerMile` (line 1384). -/
def marginalProfitPerMile (tIncome tMiles : ℚ) (ce : List Expense) : ℚ :=
  ratePerMile tIncome tMiles - variableCostPerMile tMiles ce

/-- The expense categories counted as fixed monthly costs (line 1387). -/
def FIXED_COST_CATEGORIES : List String :=
  ["Insurance", "Registration", "Tolls", "Dispatch", "Lock Box", "Trailer", "Food"]

/-- `fixedCosts` (line 1387): realized expenses in the fixed categories. -/
def fixedCosts (ce : List Expense) : ℚ :=
  ((ce.filter (fun e => decide (e.category ∈ FIXED_COST_CATEGORIES))).map Expense.amount).sum

/-- `grossMargin` (line 1390): revenue after variable costs. -/
def grossMargin (tIncome tMiles : ℚ) (ce : List Expense) : ℚ :=
  tIncome - tMiles * variableCostPerMile tMiles ce

/-- `afterFixed` (line 1391): gross margin after fixed costs. -/
def afterFixed (tIncome tMiles : ℚ) (ce : List Expense) : ℚ :=
  grossMargin tIncome tMiles ce - fixedCosts ce

/-- `shortfall` (line 1397). -/
def shortfall (tIncome tMiles : ℚ) (ce : List Expense) (pes : List PersonalExpense) : ℚ :=
  max 0 (takeHomeNeed pes - max 0 (afterFixed tIncome tMiles ce))

/-- `milesNeeded` (line 1398): `ceil(shortfall / marginalProfitPerMile)`
when the marginal profit per mile is positive, else the number 0. -/
def milesNeeded (tIncome tMiles : ℚ) (ce : List Expense) (pes : List PersonalExpense) : ℤ :=
  if 0 < marginalProfitPerMile tIncome tMiles ce then
    ⌈shortfall tIncome tMiles ce pes / marginalProfitPerMile tIncome tMiles ce⌉
  else 0

/-- `find?` returns the head of the filtered list. -/
theorem find?_eq_head?_filter {α : Type} (p : α → Bool) (l : List α) :
    l.find? p = (l.filter p).head? := by
  induction l with
  | nil => rfl
  | cons a l ih =>
    cases h : p a
    · rw [List.find?_cons_of_neg _ (by simp [h]), List.filter_cons_of_neg (by simp [h]), ih]
    · rw [List.find?_cons_of_pos _ h, List.filter_cons_of_pos h, List.head?_cons]

/-- A personal expense list with a Housing row of 2000 and a Debt row of
1000, as in the app's seeded data. -/
def pesExample : List PersonalExpense := [⟨"p1", "Housing", 2000⟩, ⟨"p7", "Debt", 1000⟩]

/-- C1 counterexample: the claim says the take-home need equals the sum
of all personal monthly amounts with the Debt amount counted exactly
once. On a Housing row of 2000 plus a Debt row of 1000 that sum is 3000,
but the code computes `totalPersonalMonthly + debtPayment = 4000`: the
Debt amount is added a second time on top of the inclusive sum. -/
theorem takeHomeNeed_ne_personal_total_example :
    takeHomeNeed pesExample = 4000 ∧ totalPersonalMonthly pesExample = 3000 ∧
      takeHomeNeed pesExample ≠ totalPersonalMonthly pesExample := by
  have h2 : totalPersonalMonthly pesExample = 3000 := by
    norm_num [totalPersonalMonthly, pesExample]
  have hd : debtPayment pesExample = 1000 := by rfl
  have h1 : takeHomeNeed pesExample = 4000 := by
    rw [takeHomeNeed, h2, hd]
    norm_num
  refine ⟨h1, h2, ?_⟩
  rw [h1, h2]
  norm_num

/-- C1 amended: when the personal expense list has exactly one
Debt-category row, the computed take-home need is the sum of the
non-Debt monthly amounts plus twice the Debt amount: the Debt amount is
counted once inside the personal total and added once more on top. -/
theorem takeHomeNeed_counts_debt_twice (pes : List PersonalExpense) (p : PersonalExpense)
    (hfilter : pes.filter (fun q => decide (q.category = "Debt")) = [p]) :
    takeHomeNeed pes =
      ((pes.filter (fun q => !decide (q.category = "Debt"))).map
        PersonalExpense.monthlyAmount).sum + 2 * p.monthlyAmount := by
  have hfind : pes.find? (fun q => decide (q.category = "Debt")) = some p := by
    rw [find?_eq_head?_filter, hfilter]
    rfl
  have hdebt : debtPayment pes = p.monthlyAmount := by
    rw [debtPayment, hfind]
  have hsplit : totalPersonalMonthly pes =
      p.monthlyAmount +
        ((pes.filter (fun q => !decide (q.category = "Debt"))).map
          PersonalExpense.monthlyAmount).sum := by
    rw [totalPersonalMonthly,
      ← sum_map_filter_add (fun q => decide (q.category = "Debt"))
        PersonalExpense.monthlyAmount pes, hfilter]
    simp
  rw [takeHomeNeed, hdebt, hsplit]
  ring

/-- Witness for C1's amended claim on the seeded Housing/Debt rows: the
take-home need is the 2000 of non-Debt rows plus twice the 1000 Debt row. -/
theorem takeHomeNeed_counts_debt_twice_witness :
    takeHomeNeed pesExample =
      ((pesExample.filter (fun q => !decide (q.category = "Debt"))).map
        PersonalExpense.monthlyAmount).sum + 2 * (1000 : ℚ) :=
  takeHomeNeed_counts_debt_twice pesExample ⟨"p7", "Debt", 1000⟩ (by rfl)

/-- A personal expense list with a single Housing row of 1000. -/
def pesHousingOnly : List PersonalExpense := [⟨"p1", "Housing", 1000⟩]

/-- C2 counterexample: the claim says a non-positive marginal profit per
mile yields a distinguishable structurally-unprofitable signal rather
than the number 0. With 100 realized miles, zero revenue and no
expenses, the marginal profit per mile is negative and the shortfall is
1000, yet `milesNeeded` is the plain number 0. -/
theorem milesNeeded_zero_when_unprofitable_example :
    marginalProfitPerMile 0 100 [] < 0 ∧
    0 < shortfall 0 100 [] pesHousingOnly ∧
    milesNeeded 0 100 [] pesHousingOnly = 0 := by
  have hm : marginalProfitPerMile 0 100 [] < 0 := by
    norm_num [marginalProfitPerMile, ratePerMile, variableCostPerMile, fuelPerMile,
      fuelExpenseTotal, CASCADIA_DEPR_RATE, CASCADIA_MAINT_RESERVE, VEHICLE_VALUE,
      THREE_YEAR_MILES]
  refine ⟨hm, ?_, ?_⟩
  · have haf : afterFixed 0 100 [] < 0 := by
      norm_num [afterFixed, grossMargin, fixedCosts, variableCostPerMile, fuelPerMile,
        fuelExpenseTotal, CASCADIA_DEPR_RATE, CASCADIA_MAINT_RESERVE, VEHICLE_VALUE,
        THREE_YEAR_MILES]
    have hmax : max 0 (afterFixed 0 100 []) = 0 := max_eq_left (le_of_lt haf)
    have hd0 : debtPayment pesHousingOnly = 0 := by rfl
    have ht : takeHomeNeed pesHousingOnly = 1000 := by
      rw [takeHomeNeed, hd0]
      norm_num [totalPersonalMonthly, pesHousingOnly]
    rw [shortfall, hmax, ht]
    norm_num
  · rw [milesNeeded, if_neg (not_lt.mpr (le_of_lt hm))]

/-- C2 amended: when the marginal profit per mile is zero or negative,
the break-even computation returns the number 0 for the miles needed —
an explicit guard against division, but a plain zero rather than a
distinguishable structurally-unprofitable signal. -/
theorem milesNeeded_eq_zero_of_nonpos_margin (tIncome tMiles : ℚ) (ce : List Expense)
    (pes : List PersonalExpense) (h : marginalProfitPerMile tIncome tMiles ce ≤ 0) :
    milesNeeded tIncome tMiles ce pes = 0 := by
  rw [milesNeeded, if_neg (not_lt.mpr h)]

/-- Witness for C2's amended claim at the concrete unprofitable input. -/
theorem milesNeeded_eq_zero_of_nonpos_margin_witness :
    milesNeeded 0 100 [] pesHousingOnly = 0 :=
  milesNeeded_eq_zero_of_nonpos_margin 0 100 [] pesHousingOnly (by
    norm_num [marginalProfitPerMile, ratePerMile, variableCostPerMile, fuelPerMile,
      fuelExpenseTotal, CASCADIA_DEPR_RATE, CASCADIA_MAINT_RESERVE, VEHICLE_VALUE,
      THREE_YEAR_MILES])

/-! ### Trip creation and editing (lines 1221-1231, 1249-1260) -/

/-- The trip record built by `handleAddIncome` (lines 1226-1228): the
rate per mile is derived as `payout / distance`, guarded to 0 when the
distance is not positive. -/
def mkIncome (id : String) (date : Date) (distance totalPayout : ℚ) : Income :=
  { id := id, date := date, distance := distance,
    ratePerMile := if 0 < distance then totalPayout / distance else 0,
    totalPayout := totalPayout }

/-- One field edit as passed to `handleEditTrip` (line 1249). Only the
fields the embedding models are represented; the date stands for the
non-numeric fields whose edit leaves the rate untouched. -/
inductive TripEdit where
  | setDistance (v : ℚ)
  | setTotalPayout (v : ℚ)
  | setDate (v : Date)
deriving DecidableEq, Repr

/-- The per-record update of `handleEditTrip` (lines 1250-1258): the
edited field is written and, when it is the distance or the payout, the
rate per mile is recomputed from the new pair with the `d > 0` guard. -/
def applyEdit (inc : Income) (e : TripEdit) : Income :=
  match e with
  | .setDistance v =>
    { inc with
      distance := v
      ratePerMile := if 0 < v then inc.totalPayout / v else 0 }
  | .setTotalPayout v =>
    { inc with
      totalPayout := v
      ratePerMile := if 0 < inc.distance then v / inc.distance else 0 }
  | .setDate v => { inc with date := v }

/-- `handleEditTrip` (lines 1249-1260) over the whole collection. -/
def handleEditTrip (incs : List Income) (tripId : String) (e : TripEdit) : List Income :=
  incs.map (fun inc => if inc.id = tripId then applyEdit inc e else inc)

/-- The §3 invariant: a trip with positive distance stores
`ratePerMile = totalPayout / distance`. -/
def rateInvariant (i : Income) : Prop :=
  0 < i.distance → i.ratePerMile = i.totalPayout / i.distance

/-- C9: trip creation establishes the rate-per-mile invariant, every
single-field edit preserves it across the collection, and editing the
distance or the payout recomputes the rate as the new payout over the
new distance (under the positive-distance guard). -/
theorem ratePerMile_invariant_preserved :
    (∀ (id : String) (d : Date) (dist pay : ℚ), rateInvariant (mkIncome id d dist pay)) ∧
    (∀ (inc : Income) (e : TripEdit), rateInvariant inc → rateInvariant (applyEdit inc e)) ∧
    (∀ (incs : List Income) (tripId : String) (e : TripEdit),
      (∀ i ∈ incs, rateInvariant i) →
      ∀ i ∈ handleEditTrip incs tripId e, rateInvariant i) ∧
    (∀ (inc : Income) (v : ℚ), 0 < v →
      (applyEdit inc (.setDistance v)).ratePerMile = inc.totalPayout / v) ∧
    (∀ (inc : Income) (v : ℚ), 0 < inc.distance →
      (applyEdit inc (.setTotalPayout v)).ratePerMile = v / inc.distance) := by
  have hedit : ∀ (inc : Income) (e : TripEdit), rateInvariant inc → rateInvariant (applyEdit inc e) := by
    intro inc e hinv
    cases e with
    | setDistance v =>
      intro hpos
      simp only [applyEdit] at hpos ⊢
      rw [if_pos hpos]
    | setTotalPayout v =>
      intro hpos
      simp only [applyEdit] at hpos ⊢
      rw [if_pos hpos]
    | setDate v =>
      intro hpos
      simp only [applyEdit] at hpos ⊢
      exact hinv hpos
  refine ⟨?_, hedit, ?_, ?_, ?_⟩
  · intro id d dist pay hpos
    simp only [mkIncome] at hpos ⊢
    rw [if_pos hpos]
  · intro incs tripId e hall i hi
    obtain ⟨j, hj, hji⟩ := List.mem_map.mp hi
    by_cases hid : j.id = tripId
    · rw [if_pos hid] at hji
      exact hji ▸ hedit j e (hall j hj)
    · rw [if_neg hid] at hji
      exact hji ▸ hall j hj
  · intro inc v hv
    simp only [applyEdit]
    rw [if_pos hv]
  · intro inc v hv
    simp only [applyEdit]
    rw [if_pos hv]

/-- Witness for C9: editing the distance of a freshly created trip to 50
rederives its rate as the stored payout over 50. -/
theorem ratePerMile_invariant_preserved_witness :
    (applyEdit (mkIncome "w1" ⟨2026, 2, 1⟩ 100 250) (.setDistance 50)).ratePerMile =
      (mkIncome "w1" ⟨2026, 2, 1⟩ 100 250).totalPayout / 50 :=
  ratePerMile_invariant_preserved.2.2.2.1 (mkIncome "w1" ⟨2026, 2, 1⟩ 100 250) 50 (by norm_num)

/-! ### DebtScheduler (lines 2513-2529) -/

/-- The overdue test of the payoff plan (lines 2517-2518): a due year is
recorded and lies strictly before the evaluation year. -/
def isOverdueDebt (year : ℤ) (d : Debt) : Bool :=
  match d.dueDate with
  | some y => decide (y < year)
  | none => false

/-- The avalanche comparator (lines 2513-2522): the `"Credit Card"`
creditor (the code's test for the revolving/high-interest debt) sorts
first, then overdue debts, then ascending outstanding amount. The
returned number plays the role of the JS comparator's return value. -/
def debtCmp (year : ℤ) (a b : Debt) : ℚ :=
  if a.creditor = "Credit Card" then -1
  else if b.creditor = "Credit Card" then 1
  else if isOverdueDebt year a && ! isOverdueDebt year b then -1
  else if ! isOverdueDebt year a && isOverdueDebt year b then 1
  else a.amount - b.amount

/-- `a` may come before `b` under the comparator: nonpositive comparator
value, the ordering JS `Array.prototype.sort` establishes. -/
def debtLe (year : ℤ) (a b : Debt) : Prop := debtCmp year a b ≤ 0

instance (year : ℤ) : DecidableRel (debtLe year) := fun a b => by
  unfold debtLe
  infer_instance

/-- The sorted payoff order (line 2513): JS `Array.prototype.sort` is a
stable comparator sort, embedded as a stable insertion sort by `debtLe`. -/
def sortedDebts (year : ℤ) (debts : List Debt) : List Debt :=
  List.insertionSort (debtLe year) debts

/-- One row of the payoff plan (lines 2525-2529): the debt, its
months-to-clear, and its completion date as a day offset
(`runningMonth * 30`) from the evaluation date. -/
structure PayoffEntry where
  debt : Debt
  monthsForThis : ℤ
  doneByDays : ℤ
deriving DecidableEq, Repr

/-- The sequential accumulation of lines 2523-2528: each debt takes
`ceil(amount / budget)` months, added to the running total before its
completion day offset is computed. -/
def planAux (budget : ℚ) : ℤ → List Debt → List PayoffEntry
  | _, [] => []
  | running, d :: ds =>
    ⟨d, ⌈d.amount / budget⌉, (running + ⌈d.amount / budget⌉) * 30⟩ ::
      planAux budget (running + ⌈d.amount / budget⌉) ds

/-- The debt payoff plan (lines 2512-2529). The app instantiates the
monthly budget at the literal `$1,000/mo`; the budget is kept as a
parameter here. -/
def debtPayoffPlan (year : ℤ) (budget : ℚ) (debts : List Debt) : List PayoffEntry :=
  planAux budget 0 (sortedDebts year debts)

/-- Unfolding of `debtLe` by cases on the comparator's branches. -/
theorem debtLe_iff (year : ℤ) (a b : Debt) :
    debtLe year a b ↔
      (a.creditor = "Credit Card" ∨
        (a.creditor ≠ "Credit Card" ∧ b.creditor ≠ "Credit Card" ∧
          ((isOverdueDebt year a = true ∧ isOverdueDebt year b = false) ∨
            (isOverdueDebt year a = isOverdueDebt year b ∧ a.amount ≤ b.amount)))) := by
  unfold debtLe debtCmp
  by_cases ha : a.creditor = "Credit Card"
  · simp [ha]
  · by_cases hb : b.creditor = "Credit Card"
    · simp [ha, hb]
    · cases hoa : isOverdueDebt year a <;> cases hob : isOverdueDebt year b <;>
        simp [ha, hb, hoa, hob, sub_nonpos]

/-- Totality of the comparator order. -/
theorem debtLe_total (year : ℤ) : ∀ a b : Debt, debtLe year a b ∨ debtLe year b a := by
  intro a b
  rw [debtLe_iff, debtLe_iff]
  by_cases ha : a.creditor = "Credit Card"
  · exact Or.inl (Or.inl ha)
  · by_cases hb : b.creditor = "Credit Card"
    · exact Or.inr (Or.inl hb)
    · cases hoa : isOverdueDebt year a <;> cases hob : isOverdueDebt year b
      · rcases le_total a.amount b.amount with h | h
        · exact Or.inl (Or.inr ⟨ha, hb, Or.inr ⟨rfl, h⟩⟩)
        · exact Or.inr (Or.inr ⟨hb, ha, Or.inr ⟨rfl, h⟩⟩)
      · exact Or.inr (Or.inr ⟨hb, ha, Or.inl ⟨rfl, rfl⟩⟩)
      · exact Or.inl (Or.inr ⟨ha, hb, Or.inl ⟨rfl, rfl⟩⟩)
      · rcases le_total a.amount b.amount with h | h
        · exact Or.inl (Or.inr ⟨ha, hb, Or.inr ⟨rfl, h⟩⟩)
        · exact Or.inr (Or.inr ⟨hb, ha, Or.inr ⟨rfl, h⟩⟩)

/-- Transitivity of the comparator order. -/
theorem debtLe_trans (year : ℤ) :
    ∀ a b c : Debt, debtLe year a b → debtLe year b c → debtLe year a c := by
  intro a b c hab hbc
  rw [debtLe_iff] at hab hbc ⊢
  rcases hab with ha | ⟨ha, hb, p1⟩
  · exact Or.inl ha
  · rcases hbc with hbcc | ⟨_, hc, p2⟩
    · exact absurd hbcc hb
    · refine Or.inr ⟨ha, hc, ?_⟩
      rcases p1 with ⟨hoa, hob⟩ | ⟨heq1, ham1⟩
      · rcases p2 with ⟨hob2, _⟩ | ⟨heq2, _⟩
        · rw [hob] at hob2
          exact absurd hob2 (by norm_num)
        · exact Or.inl ⟨hoa, heq2 ▸ hob⟩
      · rcases p2 with ⟨hob2, hoc⟩ | ⟨heq2, ham2⟩
        · exact Or.inl ⟨heq1 ▸ hob2, hoc⟩
        · exact Or.inr ⟨heq1.trans heq2, ham1.trans ham2⟩

/-- The ordering stated by the spec's avalanche rule: every
high-interest (`"Credit Card"`) debt before all others; among the
rest, overdue before non-overdue; remaining ties by ascending
outstanding amount. -/
def avalancheOrder (year : ℤ) (a b : Debt) : Prop :=
  a.creditor = "Credit Card" ∨
    (b.creditor ≠ "Credit Card" ∧
      ((isOverdueDebt year a = true ∧ isOverdueDebt year b = false) ∨
        (isOverdueDebt year a = isOverdueDebt year b ∧ a.amount ≤ b.amount)))

/-- The comparator order implies the spec's avalanche ordering. -/
theorem debtLe_imp_avalanche (year : ℤ) (a b : Debt) (h : debtLe year a b) :
    avalancheOrder year a b := by
  rcases (debtLe_iff year a b).mp h with ha | ⟨_, hb, hrest⟩
  · exact Or.inl ha
  · exact Or.inr ⟨hb, hrest⟩

/-- The plan rows carry exactly the debts of the list handed to `planAux`. -/
theorem planAux_map_debt (budget : ℚ) :
    ∀ (running : ℤ) (l : List Debt), (planAux budget running l).map PayoffEntry.debt = l := by
  intro running l
  induction l generalizing running with
  | nil => rfl
  | cons d ds ih => simp [planAux, ih]

/-- Every plan row's months-to-clear is `ceil(amount / budget)`. -/
theorem planAux_months (budget : ℚ) :
    ∀ (running : ℤ) (l : List Debt),
      ∀ e ∈ planAux budget running l, e.monthsForThis = ⌈e.debt.amount / budget⌉ := by
  intro running l
  induction l generalizing running with
  | nil => intro e he; exact absurd he (List.not_mem_nil e)
  | cons d ds ih =>
    intro e he
    rcases List.mem_cons.mp he with rfl | he'
    · rfl
    · exact ih _ e he'

/-- Successive plan rows differ by the later row's months times 30 days. -/
theorem planAux_chain (budget : ℚ) :
    ∀ (running : ℤ) (l : List Debt),
      List.Chain' (fun x y => y.doneByDays = x.doneByDays + y.monthsForThis * 30)
        (planAux budget running l) := by
  intro running l
  induction l generalizing running with
  | nil => exact List.chain'_nil
  | cons d ds ih =>
    refine List.chain'_cons'.mpr ⟨?_, ih _⟩
    intro y hy
    cases ds with
    | nil => simp [planAux] at hy
    | cons d2 ds2 =>
      simp only [planAux, List.head?_cons, Option.mem_def, Option.some.injEq] at hy
      rw [← hy]
      ring

/-- The first plan row's day offset is the running total plus its own
months, times 30. -/
theorem planAux_head (budget : ℚ) :
    ∀ (running : ℤ) (l : List Debt) (h0 : planAux budget running l ≠ []),
      ((planAux budget running l).head h0).doneByDays =
        running * 30 + ((planAux budget running l).head h0).monthsForThis * 30 := by
  intro running l h0
  cases l with
  | nil => exact absurd rfl h0
  | cons d ds =>
    simp only [planAux, List.head_cons]
    ring

/-- With nonnegative months-to-clear, the day offsets never decrease. -/
theorem planAux_mono (budget : ℚ) :
    ∀ (running : ℤ) (l : List Debt), (∀ d ∈ l, 0 ≤ (⌈d.amount / budget⌉ : ℤ)) →
      List.Chain' (fun x y => x.doneByDays ≤ y.doneByDays) (planAux budget running l) := by
  intro running l
  induction l generalizing running with
  | nil => intro _; exact List.chain'_nil
  | cons d ds ih =>
    intro hpos
    refine List.chain'_cons'.mpr ⟨?_, ih _ (fun d hd => hpos d (List.mem_cons_of_mem _ hd))⟩
    intro y hy
    cases ds with
    | nil => simp [planAux] at hy
    | cons d2 ds2 =>
      simp only [planAux, List.head?_cons, Option.mem_def, Option.some.injEq] at hy
      rw [← hy]
      have h2 : 0 ≤ (⌈d2.amount / budget⌉ : ℤ) :=
        hpos d2 (List.mem_cons_of_mem _ (List.mem_cons_self d2 ds2))
      simp only []
      nlinarith

/-- C7: the payoff plan lists every debt exactly once, in the avalanche
order (high-interest first, then overdue, then ascending amount); each
row's months-to-clear is `ceil(amount / budget)`; the completion day
offsets accumulate sequentially (each row's offset is the previous
offset plus its own months times 30 days, the first row starting from
zero); and the completion dates are monotonically non-decreasing. -/
theorem debtPayoffPlan_spec (debts : List Debt) (year : ℤ) (budget : ℚ)
    (hb : 0 < budget) (hamt : ∀ d ∈ debts, 0 ≤ d.amount) :
    ((debtPayoffPlan year budget debts).map PayoffEntry.debt).Perm debts ∧
    ((debtPayoffPlan year budget debts).map PayoffEntry.debt).Pairwise (avalancheOrder year) ∧
    (∀ e ∈ debtPayoffPlan year budget debts, e.monthsForThis = ⌈e.debt.amount / budget⌉) ∧
    List.Chain' (fun x y => y.doneByDays = x.doneByDays + y.monthsForThis * 30)
      (debtPayoffPlan year budget debts) ∧
    (∀ h0 : debtPayoffPlan year budget debts ≠ [],
      ((debtPayoffPlan year budget debts).head h0).doneByDays =
        ((debtPayoffPlan year budget debts).head h0).monthsForThis * 30) ∧
    (debtPayoffPlan year budget debts).Pairwise (fun x y => x.doneByDays ≤ y.doneByDays) := by
  haveI : IsTotal Debt (debtLe year) := ⟨debtLe_total year⟩
  haveI : IsTrans Debt (debtLe year) := ⟨debtLe_trans year⟩
  have hmapdebt : (debtPayoffPlan year budget debts).map PayoffEntry.debt =
      sortedDebts year debts := planAux_map_debt budget 0 (sortedDebts year debts)
  refine ⟨?_, ?_, planAux_months budget 0 _, planAux_chain budget 0 _, ?_, ?_⟩
  · rw [hmapdebt]
    exact List.perm_insertionSort (debtLe year) debts
  · rw [hmapdebt]
    exact (List.sorted_insertionSort (debtLe year) debts).imp
      (fun h => debtLe_imp_avalanche year _ _ h)
  · intro h0
    have h1 := planAux_head budget 0 (sortedDebts year debts) h0
    rw [zero_mul, zero_add] at h1
    exact h1
  · haveI : IsTrans PayoffEntry (fun x y : PayoffEntry => x.doneByDays ≤ y.doneByDays) :=
      ⟨fun _ _ _ hab hbc => le_trans hab hbc⟩
    refine List.chain'_iff_pairwise.mp ?_
    refine planAux_mono budget 0 _ ?_
    intro d hd
    have hmem : d ∈ debts := ((List.perm_insertionSort (debtLe year) debts).mem_iff).mp hd
    exact Int.ceil_nonneg (div_nonneg (hamt d hmem) (le_of_lt hb))

/-- The spec's debt-ordering test data: A non-overdue with no interest
flag, B overdue, C the high-interest credit card. -/
def specDebts : List Debt :=
  [⟨"A", "Friend", 1000, none⟩, ⟨"B", "Cousin", 2000, some 2024⟩,
    ⟨"C", "Credit Card", 500, none⟩]

/-- Witness for C7 on the spec's three test debts with a 1000 budget in
2026: the plan is a permutation of the debts, pairwise in avalanche
order, and its completion dates never decrease. -/
theorem debtPayoffPlan_spec_witness :
    ((debtPayoffPlan 2026 1000 specDebts).map PayoffEntry.debt).Perm specDebts ∧
    ((debtPayoffPlan 2026 1000 specDebts).map PayoffEntry.debt).Pairwise (avalancheOrder 2026) ∧
    (debtPayoffPlan 2026 1000 specDebts).Pairwise
      (fun x y => x.doneByDays ≤ y.doneByDays) := by
  have h := debtPayoffPlan_spec specDebts 2026 1000 (by norm_num) (by
    intro d hd
    simp only [specDebts, List.mem_cons, List.not_mem_nil, or_false] at hd
    rcases hd with rfl | rfl | rfl <;> norm_num)
  exact ⟨h.1, h.2.1, h.2.2.2.2.2⟩

end RoadLedger
